import Mathlib

/-!
Shallow embedding of the AliceVision distortion-calibration driver
(src/software/pipeline/main_distortionCalibration.cpp).

Floating-point doubles are modelled by the rationals.  The constants
M_PI_4 and M_PI_2 (quarter and half pi) are irrational, so they are
carried as explicit parameters of the definitions that store them; no
property proved here depends on their value.  The external library
calls (calibration::estimate, the camera distort and undistort maps,
and the square root used for the image diagonal) are modelled as
function parameters; spec-derived properties of calibration::estimate
are stated as explicit predicates on those parameters.
-/

namespace DistortionCalibration

/-- A 2D image point (CheckerBoardCorner.center, Vec2 in the source). -/
structure Vec2 where
  x : ℚ
  y : ℚ
deriving DecidableEq, Repr

/-- A checkerboard: a rows by cols grid of corner indices; a cell holds
either a corner index or the UndefinedIndexT sentinel (none here). -/
structure CheckerBoard where
  rows : ℕ
  cols : ℕ
  cell : ℕ → ℕ → Option ℕ

/-- The checkerboard detector result: corner list plus board grids. -/
structure CheckerDetector where
  corners : List Vec2
  boards : List CheckerBoard

/-- calibration::LineWithPoints. -/
structure LineWithPoints where
  angle : ℚ
  dist : ℚ
  horizontal : Bool
  index : ℕ
  board : ℕ
  points : List Vec2
deriving DecidableEq, Repr

/-- calibration::PointPair. -/
structure PointPair where
  undistortedPoint : Vec2
  distortedPoint : Vec2
deriving DecidableEq, Repr

/-- Look up the corner stored at a grid cell: corners[b(i, j)] when the
cell is defined (out-of-range corner indices, undefined behaviour in the
C++, default to the origin). -/
def cellPoint (corners : List Vec2) (b : CheckerBoard) (p : ℕ × ℕ) : Option Vec2 :=
  (b.cell p.1 p.2).map (fun idx => corners.getD idx ⟨0, 0⟩)

/-- Row family of retrieveLines: for row i, the defined corners at
(i, 0..cols-1). -/
def rowPoints (corners : List Vec2) (b : CheckerBoard) (i : ℕ) : List Vec2 :=
  (List.range b.cols).filterMap (fun j => cellPoint corners b (i, j))

/-- Column family of retrieveLines: for column j, the defined corners at
(0..rows-1, j). -/
def colPoints (corners : List Vec2) (b : CheckerBoard) (j : ℕ) : List Vec2 :=
  (List.range b.rows).filterMap (fun i => cellPoint corners b (i, j))

/-- Cells visited by the first diagonal family for start row i:
for j = 0, 1, ... while j < cols, breaking when i + j >= rows,
the cell (i + j, j). -/
def diag1Idx (b : CheckerBoard) (i : ℕ) : List (ℕ × ℕ) :=
  ((List.range b.cols).takeWhile (fun j => decide (i + j < b.rows))).map
    (fun j => (i + j, j))

/-- Cells visited by the second diagonal family for start column j:
for i = 0, 1, ... while i < rows, breaking when i + j >= cols,
the cell (i, i + j). -/
def diag2Idx (b : CheckerBoard) (j : ℕ) : List (ℕ × ℕ) :=
  ((List.range b.rows).takeWhile (fun i => decide (i + j < b.cols))).map
    (fun i => (i, i + j))

/-- Cells visited by the third diagonal family for start column j:
for i = 0, 1, ... while i < rows, breaking when i + j >= cols,
the cell (rows - 1 - i, i + j). -/
def diag3Idx (b : CheckerBoard) (j : ℕ) : List (ℕ × ℕ) :=
  ((List.range b.rows).takeWhile (fun i => decide (i + j < b.cols))).map
    (fun i => (b.rows - 1 - i, i + j))

/-- Defined corners along the first diagonal family for start row i. -/
def diag1Points (corners : List Vec2) (b : CheckerBoard) (i : ℕ) : List Vec2 :=
  (diag1Idx b i).filterMap (cellPoint corners b)

/-- Defined corners along the second diagonal family for start column j. -/
def diag2Points (corners : List Vec2) (b : CheckerBoard) (j : ℕ) : List Vec2 :=
  (diag2Idx b j).filterMap (cellPoint corners b)

/-- Defined corners along the third diagonal family for start column j. -/
def diag3Points (corners : List Vec2) (b : CheckerBoard) (j : ℕ) : List Vec2 :=
  (diag3Idx b j).filterMap (cellPoint corners b)

/-- The line record built by retrieveLines before the length filter:
angle is initialized to M_PI_4 (passed as the parameter pi4), dist
to 1. -/
def mkLine (pi4 : ℚ) (hz : Bool) (index board : ℕ) (pts : List Vec2) : LineWithPoints :=
  { angle := pi4, dist := 1, horizontal := hz, index := index, board := board, points := pts }

/-- One family of candidate lines: indices 0..n-1, each emitted only
when it carries at least 10 defined corners. -/
def familyLines (pi4 : ℚ) (hz : Bool) (board : ℕ) (n : ℕ) (f : ℕ → List Vec2) :
    List LineWithPoints :=
  (List.range n).filterMap (fun i =>
    if (f i).length < 10 then none else some (mkLine pi4 hz i board (f i)))

/-- All candidate lines of one board, in the emission order of the
source: rows, columns, then the three diagonal families. -/
def boardLines (pi4 : ℚ) (corners : List Vec2) (boardIdx : ℕ) (b : CheckerBoard) :
    List LineWithPoints :=
  familyLines pi4 true boardIdx b.rows (rowPoints corners b)
    ++ familyLines pi4 false boardIdx b.cols (colPoints corners b)
    ++ familyLines pi4 false boardIdx b.rows (diag1Points corners b)
    ++ familyLines pi4 false boardIdx b.cols (diag2Points corners b)
    ++ familyLines pi4 false boardIdx b.cols (diag3Points corners b)

/-- The accumulated line vector of retrieveLines over all boards. -/
def retrieveLinesList (pi4 : ℚ) (det : CheckerDetector) : List LineWithPoints :=
  (det.boards.enum.map (fun p => boardLines pi4 det.corners p.1 p.2)).flatten

/-- retrieveLines: fills the line vector and returns false when fewer
than two lines survive (source lines 199 to 204). -/
def retrieveLines (pi4 : ℚ) (det : CheckerDetector) : Bool × List LineWithPoints :=
  if (retrieveLinesList pi4 det).length < 2 then (false, retrieveLinesList pi4 det)
  else (true, retrieveLinesList pi4 det)

/-! ## Cameras and the staged estimation schedules -/

/-- The dynamic type of the pinhole camera, as tested by the chain of
dynamic_pointer_cast in the orchestrator (source lines 632 to 675).
otherPinhole stands for a pinhole camera whose distortion model is none
of the five supported ones (the Incompatible camera distortion model
branch). -/
inductive CameraModel
  | radialK1
  | radialK3
  | de3Radial4
  | de3Anamorphic4
  | de3ClassicLD
  | otherPinhole
deriving DecidableEq, Repr

/-- The state of a pinhole camera that the driver reads and writes:
image size, pixel scale, principal point offset and the distortion
parameter vector. -/
structure Camera where
  model : CameraModel
  w : ℕ
  h : ℕ
  scale : ℚ × ℚ
  offset : ℚ × ℚ
  distortionParams : List ℚ
deriving DecidableEq, Repr

/-- The argument tuple of one calibration::estimate call:
(lockScale, lockCenter, locksDistortions, lockLines). -/
structure StageCall where
  lockScale : Bool
  lockCenter : Bool
  locksDistortions : List Bool
  lockLines : Bool
deriving DecidableEq, Repr

/-- The type of the external solver calibration::estimate (declared in
aliceVision/calibration/distortionEstimation.hpp, outside this
repository): it receives the camera, the item list and the four lock
arguments, mutates the camera in place and returns a success flag.  The
Statistics output parameter is omitted: no claim refers to it. -/
def EstimateFn (Item : Type) : Type :=
  Camera → List Item → Bool → Bool → List Bool → Bool → Bool × Camera

/-- Run a sequence of estimate calls, stopping at the first failure
(each estimateDistortionXX aborts and returns false as soon as one
calibration::estimate call fails).  Returns the final camera state, the
overall success flag, and the trace of estimate calls actually made. -/
def runStages {Item : Type} (est : EstimateFn Item) (stages : List StageCall)
    (cam : Camera) (items : List Item) : Camera × Bool × List StageCall :=
  match stages with
  | [] => (cam, true, [])
  | s :: rest =>
    let r := est cam items s.lockScale s.lockCenter s.locksDistortions s.lockLines
    if r.1 then
      let rec' := runStages est rest r.2 items
      (rec'.1, rec'.2.1, s :: rec'.2.2)
    else
      (r.2, false, [s])

/-- The three estimate calls of estimateDistortionK1 (source lines
208 to 237). -/
def k1Stages : List StageCall :=
  [ ⟨true, true, [true], false⟩,
    ⟨true, true, [false], false⟩,
    ⟨true, false, [false], false⟩ ]

/-- The four estimate calls of estimateDistortionK3 (source lines
240 to 279). -/
def k3Stages : List StageCall :=
  [ ⟨true, true, [true, true, true], false⟩,
    ⟨true, true, [false, true, true], false⟩,
    ⟨true, false, [false, true, true], false⟩,
    ⟨true, false, [false, false, false], false⟩ ]

/-- The four estimate calls of estimateDistortion3DER4 (source lines
282 to 324). -/
def r4Stages : List StageCall :=
  [ ⟨true, true, [true, true, true, true, true, true], false⟩,
    ⟨true, true, [false, true, true, true, true, true], false⟩,
    ⟨true, false, [false, true, true, true, true, true], false⟩,
    ⟨true, false, [false, false, false, false, false, false], false⟩ ]

/-- The five estimate calls of estimateDistortion3DEA4 (source lines
345 to 405); each entry is the snapshot of the locksDistortions vector
at that call. -/
def a4Stages : List StageCall :=
  [ ⟨true, true, List.replicate 14 true, false⟩,
    ⟨true, false, List.replicate 14 true, false⟩,
    ⟨true, false, [false, false, false, false, true, true, true, true, true, true,
                   true, true, true, true], true⟩,
    ⟨true, false, [false, false, false, false, false, false, false, false, false, false,
                   true, true, true, true], true⟩,
    ⟨true, false, [false, false, false, false, false, false, false, false, false, false,
                   false, false, true, true], true⟩ ]

/-- The five estimate calls of estimateDistortion3DELD (source lines
421 to 469). -/
def ldStages : List StageCall :=
  [ ⟨true, true, [true, true, true, true, true], false⟩,
    ⟨true, true, [false, true, true, true, true], false⟩,
    ⟨true, false, [false, true, true, true, true], false⟩,
    ⟨true, false, [false, true, false, false, true], false⟩,
    ⟨true, false, [false, false, false, false, false], true⟩ ]

/-- The parameter initialization of estimateDistortion3DEA4 (source
lines 329 to 343): the read-modify-write of the 14-entry vector.  Note
that index 4 is never written. -/
def a4InitParams (params : List ℚ) : List ℚ :=
  ((((((((((((params.set 0 0).set 1 0).set 2 0).set 3 0).set 5 0).set 6 0).set 7 0).set
    8 0).set 9 0).set 10 0).set 11 1).set 12 1).set 13 1

/-- The parameter initialization of estimateDistortion3DELD (source
lines 413 to 419); pi2 stands for the constant M_PI_2. -/
def ldInitParams (pi2 : ℚ) (params : List ℚ) : List ℚ :=
  ((((params.set 0 0).set 1 pi2).set 2 0).set 3 0).set 4 0

/-- estimateDistortionK1. -/
def estimateDistortionK1 {Item : Type} (est : EstimateFn Item) (cam : Camera)
    (items : List Item) : Camera × Bool × List StageCall :=
  runStages est k1Stages cam items

/-- estimateDistortionK3. -/
def estimateDistortionK3 {Item : Type} (est : EstimateFn Item) (cam : Camera)
    (items : List Item) : Camera × Bool × List StageCall :=
  runStages est k3Stages cam items

/-- estimateDistortion3DER4. -/
def estimateDistortion3DER4 {Item : Type} (est : EstimateFn Item) (cam : Camera)
    (items : List Item) : Camera × Bool × List StageCall :=
  runStages est r4Stages cam items

/-- estimateDistortion3DEA4: initialize the parameter vector, then run
the five stages. -/
def estimateDistortion3DEA4 {Item : Type} (est : EstimateFn Item) (cam : Camera)
    (items : List Item) : Camera × Bool × List StageCall :=
  runStages est a4Stages
    { cam with distortionParams := a4InitParams cam.distortionParams } items

/-- estimateDistortion3DELD: initialize the parameter vector, then run
the five stages. -/
def estimateDistortion3DELD {Item : Type} (pi2 : ℚ) (est : EstimateFn Item) (cam : Camera)
    (items : List Item) : Camera × Bool × List StageCall :=
  runStages est ldStages
    { cam with distortionParams := ldInitParams pi2 cam.distortionParams } items

/-! ## Point-pair generation -/

/-- Difference of two points. -/
def vsub (a b : Vec2) : Vec2 :=
  ⟨a.x - b.x, a.y - b.y⟩

/-- Squared Euclidean norm.  The source compares the norm against 1e-3;
since both sides are nonnegative this is equivalent to comparing the
squared norm against (1e-3)^2, which keeps the embedding inside the
rationals. -/
def normSq (v : Vec2) : ℚ :=
  v.x * v.x + v.y * v.y

/-- generatePoints (source lines 474 to 496).  dPix and udPix stand for
the camera member functions get_d_pixel and get_ud_pixel of the just
fitted camera.  Each corner pt of each line yields the candidate pair
(undistortedPoint := dPix pt, distortedPoint := pt), kept only when the
round trip error norm is at most 1e-3.  The function always returns
true. -/
def generatePoints (dPix udPix : Vec2 → Vec2) (lines : List LineWithPoints) :
    Bool × List PointPair :=
  (true,
    (lines.map (fun l => l.points.filterMap (fun pt =>
      if (1 / 1000 : ℚ) ^ 2 < normSq (vsub (udPix (dPix pt)) pt)
      then none
      else some (⟨dPix pt, pt⟩ : PointPair)))).flatten)

/-! ## The per-intrinsic orchestrator -/

/-- How the processing of one intrinsic ended: which continue statement
of the per-intrinsic loop body fired, if any. -/
inductive Outcome
  | abortedCalibration
  | abortedGeneratePoints
  | abortedInversion
  | completed
deriving DecidableEq, Repr

/-- The observable result of processing one intrinsic: the final camera
state, the outcome, and the traces of estimate calls made by the
calibration dispatch and by the inversion dispatch. -/
structure IntrinsicResult where
  camera : Camera
  outcome : Outcome
  calibTrace : List StageCall
  invTrace : List StageCall
deriving DecidableEq, Repr

/-- The model dispatch of the orchestrator (both dispatch blocks,
source lines 632 to 675 and 711 to 754): select the schedule matching
the dynamic camera type.  The Incompatible camera distortion model
branch only logs, performs no estimate call and does not abort. -/
def dispatchEstimate {Item : Type} (pi2 : ℚ) (est : EstimateFn Item) (cam : Camera)
    (items : List Item) : Camera × Bool × List StageCall :=
  match cam.model with
  | .radialK1 => estimateDistortionK1 est cam items
  | .radialK3 => estimateDistortionK3 est cam items
  | .de3Radial4 => estimateDistortion3DER4 est cam items
  | .de3Anamorphic4 => estimateDistortion3DEA4 est cam items
  | .de3ClassicLD => estimateDistortion3DELD pi2 est cam items
  | .otherPinhole => (cam, true, [])

/-- The per-intrinsic loop body after line gathering (source lines 623
to 758): save the scale, set it to (diag, diag) with
diag = sqrt(hw^2 + hh^2), run the calibration dispatch, restore the
scale, generate point pairs, run the inversion dispatch.  Every failing
dispatch raises continue, skipping the rest of the body; in particular
a calibration failure skips the scale restore.  sqrtQ stands for the
library square root, dPix and udPix for the camera pixel maps. -/
def processIntrinsic (pi2 : ℚ) (sqrtQ : ℚ → ℚ) (estL : EstimateFn LineWithPoints)
    (estP : EstimateFn PointPair) (dPix udPix : Camera → Vec2 → Vec2)
    (cam0 : Camera) (allLines : List LineWithPoints) : IntrinsicResult :=
  let hw : ℚ := (cam0.w : ℚ) * (1 / 2)
  let hh : ℚ := (cam0.h : ℚ) * (1 / 2)
  let diag : ℚ := sqrtQ (hw * hw + hh * hh)
  let scale := cam0.scale
  let cam1 : Camera := { cam0 with scale := (diag, diag) }
  let r1 := dispatchEstimate pi2 estL cam1 allLines
  if r1.2.1 = false then
    ⟨r1.1, .abortedCalibration, r1.2.2, []⟩
  else
    let cam3 : Camera := { r1.1 with scale := scale }
    let gp := generatePoints (dPix cam3) (udPix cam3) allLines
    if gp.1 = false then
      ⟨cam3, .abortedGeneratePoints, r1.2.2, []⟩
    else
      let r2 := dispatchEstimate pi2 estP cam3 gp.2
      if r2.2.1 = false then
        ⟨r2.1, .abortedInversion, r1.2.2, r2.2.2⟩
      else
        ⟨r2.1, .completed, r1.2.2, r2.2.2⟩

/-! ## The main loop over views and intrinsics -/

/-- A view of the scene: its intrinsic id plus the checkerboard
detector parsed from checkers_viewId.json, or none when that file is
missing. -/
structure View where
  intrinsicId : ℕ
  detector : Option CheckerDetector

/-- The default-constructed CheckerDetector that a std::map lookup
produces for a view whose detector file was never loaded. -/
def emptyDetector : CheckerDetector :=
  ⟨[], []⟩

/-- Line gathering for one intrinsic (source lines 604 to 620): over
the views sharing the intrinsic id, in order, append the lines of each
view for which retrieveLines returns true; views where it returns false
are skipped. -/
def gatherLines (pi4 : ℚ) (intrinsicId : ℕ) (views : List View) : List LineWithPoints :=
  views.foldr
    (fun v acc =>
      if v.intrinsicId = intrinsicId then
        let r := retrieveLines pi4 (v.detector.getD emptyDetector)
        if r.1 then r.2 ++ acc else acc
      else acc)
    []

/-- An intrinsic of the scene: either a pinhole camera or a non-pinhole
intrinsic (for which the dynamic_pointer_cast to camera::Pinhole
fails). -/
inductive SceneIntrinsic
  | pinhole (cam : Camera)
  | nonPinhole

/-- Whether a scene intrinsic is a pinhole camera. -/
def SceneIntrinsic.isPinhole : SceneIntrinsic → Bool
  | .pinhole _ => true
  | .nonPinhole => false

/-- The calibration loop over the intrinsics (source lines 589 to 759).
On the first non-pinhole intrinsic the whole program returns
EXIT_FAILURE at once (source lines 596 to 600), modelled by none; the
remaining intrinsics are not processed.  Otherwise every pinhole
intrinsic is processed and its per-intrinsic result collected; a
failing intrinsic only skips the rest of its own loop body. -/
def processAll (pi4 pi2 : ℚ) (sqrtQ : ℚ → ℚ) (estL : EstimateFn LineWithPoints)
    (estP : EstimateFn PointPair) (dPix udPix : Camera → Vec2 → Vec2)
    (views : List View) : List (ℕ × SceneIntrinsic) → Option (List (ℕ × IntrinsicResult))
  | [] => some []
  | (_, .nonPinhole) :: _ => none
  | (i, .pinhole cam) :: rest =>
    let lines := gatherLines pi4 i views
    let r := processIntrinsic pi2 sqrtQ estL estP dPix udPix cam lines
    (processAll pi4 pi2 sqrtQ estL estP dPix udPix views rest).map
      (fun tail => (i, r) :: tail)

/-- The exit status of aliceVision_main after command-line parsing
(source lines 555 to 769): EXIT_FAILURE when the input scene cannot be
read, when an intrinsic is not pinhole, or when the output scene cannot
be written; EXIT_SUCCESS otherwise.  loadOk and saveOk stand for the
results of the external sfmDataIO calls. -/
def mainExitCode (pi4 pi2 : ℚ) (sqrtQ : ℚ → ℚ) (estL : EstimateFn LineWithPoints)
    (estP : EstimateFn PointPair) (dPix udPix : Camera → Vec2 → Vec2)
    (views : List View) (intrinsics : List (ℕ × SceneIntrinsic))
    (loadOk saveOk : Bool) : ℕ :=
  if loadOk = false then 1
  else
    match processAll pi4 pi2 sqrtQ estL estP dPix udPix views intrinsics with
    | none => 1
    | some _ => if saveOk then 0 else 1

/-! ## Spec-modelled properties of the external solver -/

/-- Modelled from the spec: calibration::estimate (declared in
aliceVision/calibration/distortionEstimation.hpp, which is not part of
this repository) freezes every distortion parameter whose lock flag is
set: locksDistortions[i], if true, means the i-th distortion parameter
is frozen.  A successful call leaves every locked entry unchanged. -/
def RespectsDistortionLocks {Item : Type} (est : EstimateFn Item) : Prop :=
  ∀ cam items ls lc locks ll,
    (est cam items ls lc locks ll).1 = true →
    ∀ i, locks.getD i false = true →
      ((est cam items ls lc locks ll).2).distortionParams.getD i 0 =
        cam.distortionParams.getD i 0

/-- Modelled from the spec: calibration::estimate, when called with
lockScale true (as every call in this driver is), leaves the pixel
scale untouched, whether it succeeds or fails. -/
def RespectsScaleLock {Item : Type} (est : EstimateFn Item) : Prop :=
  ∀ cam items lc locks ll,
    ((est cam items true lc locks ll).2).scale = cam.scale

/-! ## Helper lemmas -/

/-- The line vector filled by retrieveLines is the same whether or not
the two-line check passes. -/
lemma retrieveLines_snd (pi4 : ℚ) (det : CheckerDetector) :
    (retrieveLines pi4 det).2 = retrieveLinesList pi4 det := by
  unfold retrieveLines
  split <;> rfl

/-- Any member of a candidate family satisfies the creation invariant:
at least 10 points, angle pi4, dist 1. -/
lemma familyLines_invariant {pi4 : ℚ} {hz : Bool} {board n : ℕ} {f : ℕ → List Vec2}
    {l : LineWithPoints} (h : l ∈ familyLines pi4 hz board n f) :
    10 ≤ l.points.length ∧ l.angle = pi4 ∧ l.dist = 1 := by
  simp only [familyLines, List.mem_filterMap, List.mem_range] at h
  obtain ⟨i, _, heq⟩ := h
  by_cases hlen : (f i).length < 10
  · rw [if_pos hlen] at heq
    exact Option.noConfusion heq
  · rw [if_neg hlen] at heq
    injection heq with heq
    subst heq
    exact ⟨Nat.le_of_not_lt hlen, rfl, rfl⟩

/-- Any member of the per-board line list satisfies the creation
invariant. -/
lemma boardLines_invariant {pi4 : ℚ} {corners : List Vec2} {boardIdx : ℕ}
    {b : CheckerBoard} {l : LineWithPoints} (h : l ∈ boardLines pi4 corners boardIdx b) :
    10 ≤ l.points.length ∧ l.angle = pi4 ∧ l.dist = 1 := by
  simp only [boardLines, List.mem_append] at h
  rcases h with ((((h | h) | h) | h) | h) <;> exact familyLines_invariant h

/-! ## C8 -/

/-- C8: every LineWithPoints emitted by retrieveLines carries at least
10 points, and at creation its angle equals the constant M_PI_4 (the
parameter pi4) and its dist equals 1; a candidate with fewer than 10
defined corners is never emitted (it could not be a member, since every
member has at least 10 points). -/
theorem retrieveLines_line_invariant (pi4 : ℚ) (det : CheckerDetector)
    (l : LineWithPoints) (h : l ∈ (retrieveLines pi4 det).2) :
    10 ≤ l.points.length ∧ l.angle = pi4 ∧ l.dist = 1 := by
  rw [retrieveLines_snd] at h
  simp only [retrieveLinesList, List.mem_flatten, List.mem_map] at h
  obtain ⟨chunk, ⟨p, _, hchunk⟩, hmem⟩ := h
  rw [← hchunk] at hmem
  exact boardLines_invariant hmem

/-- A one-row board of ten defined corners, for evaluating the line
extractor on a concrete input. -/
def rowBoard : CheckerBoard :=
  ⟨1, 10, fun i j => if i = 0 ∧ j < 10 then some j else none⟩

/-- Ten concrete corners. -/
def rowCorners : List Vec2 :=
  (List.range 10).map (fun j => ⟨(j : ℚ), 0⟩)

/-- A concrete detector holding the one-row board. -/
def rowDetector : CheckerDetector :=
  ⟨rowCorners, [rowBoard]⟩

/-- Witness for C8 at a concrete input: the one-row board yields an
accepted line, and it has at least 10 points, angle pi4 = 1 and
dist 1. -/
theorem retrieveLines_line_invariant_witness :
    (mkLine 1 true 0 0 rowCorners ∈ (retrieveLines 1 rowDetector).2) ∧
      (10 ≤ (mkLine 1 true 0 0 rowCorners).points.length ∧
        (mkLine 1 true 0 0 rowCorners).angle = 1 ∧
        (mkLine 1 true 0 0 rowCorners).dist = 1) := by
  refine ⟨by decide, retrieveLines_line_invariant 1 rowDetector _ (by decide)⟩

/-! ## C6 -/

/-- C6: every PointPair accepted by generatePoints satisfies the round
trip bound: the squared norm of undistort(undistortedPoint) minus
distortedPoint is at most (1e-3)^2 (equivalently, the norm is at most
1e-3); and generatePoints reports success, so pairs exceeding the bound
are dropped without raising an error. -/
theorem generatePoints_roundtrip_bound (dPix udPix : Vec2 → Vec2)
    (lines : List LineWithPoints) (pp : PointPair)
    (h : pp ∈ (generatePoints dPix udPix lines).2) :
    normSq (vsub (udPix pp.undistortedPoint) pp.distortedPoint) ≤ (1 / 1000 : ℚ) ^ 2 ∧
      (generatePoints dPix udPix lines).1 = true := by
  refine ⟨?_, rfl⟩
  simp only [generatePoints, List.mem_flatten, List.mem_map] at h
  obtain ⟨chunk, ⟨l, _, hchunk⟩, hmem⟩ := h
  rw [← hchunk] at hmem
  simp only [List.mem_filterMap] at hmem
  obtain ⟨pt, _, heq⟩ := hmem
  by_cases hc : (1 / 1000 : ℚ) ^ 2 < normSq (vsub (udPix (dPix pt)) pt)
  · rw [if_pos hc] at heq
    exact Option.noConfusion heq
  · rw [if_neg hc] at heq
    injection heq with heq
    subst heq
    exact le_of_not_lt hc

/-- Witness for C6 at a concrete input: with identity pixel maps and a
single one-point line, the pair (origin, origin) is accepted and
satisfies the bound. -/
theorem generatePoints_roundtrip_bound_witness :
    normSq (vsub ((fun p => p) (⟨⟨0, 0⟩, ⟨0, 0⟩⟩ : PointPair).undistortedPoint)
        (⟨⟨0, 0⟩, ⟨0, 0⟩⟩ : PointPair).distortedPoint) ≤ (1 / 1000 : ℚ) ^ 2 ∧
      (generatePoints (fun p => p) (fun p => p) [mkLine 1 true 0 0 [⟨0, 0⟩]]).1 = true :=
  generatePoints_roundtrip_bound (fun p => p) (fun p => p) [mkLine 1 true 0 0 [⟨0, 0⟩]]
    ⟨⟨0, 0⟩, ⟨0, 0⟩⟩ (by norm_num [generatePoints, normSq, vsub, mkLine])

/-! ## C10 -/

/-- C10: generatePoints returns true for every camera pixel map pair
and every list of lines (including the empty list), and consequently
the Error generating points branch of the caller is unreachable: no
run of the per-intrinsic body ends with the generate-points abort. -/
theorem generatePoints_never_fails (dPix udPix : Vec2 → Vec2)
    (lines : List LineWithPoints) :
    (generatePoints dPix udPix lines).1 = true ∧
      ∀ (pi2 : ℚ) (sqrtQ : ℚ → ℚ) (estL : EstimateFn LineWithPoints)
        (estP : EstimateFn PointPair) (dP udP : Camera → Vec2 → Vec2) (cam0 : Camera),
        (processIntrinsic pi2 sqrtQ estL estP dP udP cam0 lines).outcome ≠
          Outcome.abortedGeneratePoints := by
  refine ⟨rfl, ?_⟩
  intro pi2 sqrtQ estL estP dP udP cam0
  unfold processIntrinsic
  dsimp only
  split
  · simp
  · split
    · next hgp => simp [generatePoints] at hgp
    · split <;> simp

/-! ## C9 -/

/-- Taking the initial segment of 0..n-1 below m yields 0..min n m - 1. -/
lemma takeWhile_lt_range (n m : ℕ) :
    (List.range n).takeWhile (fun j => decide (j < m)) = List.range (min n m) := by
  induction n generalizing m with
  | zero => simp
  | succ n ih =>
    cases m with
    | zero =>
      rw [List.range_succ_eq_map, List.takeWhile_cons]
      simp
    | succ k =>
      rw [List.range_succ_eq_map, List.takeWhile_cons]
      have hp : (fun a => decide (a < k + 1)) ∘ Nat.succ = fun a => decide (a < k) := by
        funext a
        simp [Nat.succ_lt_succ_iff]
      simp only [decide_eq_true_eq, Nat.succ_pos, if_pos, List.takeWhile_map, hp, ih,
        Nat.succ_min_succ, List.range_succ_eq_map]

/-- The first diagonal family, started at row 0, visits the cells
(k, k) for k below min rows cols. -/
lemma diag1Idx_zero (b : CheckerBoard) :
    diag1Idx b 0 = (List.range (min b.rows b.cols)).map (fun k => (k, k)) := by
  unfold diag1Idx
  simp only [Nat.zero_add, takeWhile_lt_range, Nat.min_comm b.rows b.cols]

/-- The second diagonal family, started at column 0, visits the cells
(k, k) for k below min rows cols. -/
lemma diag2Idx_zero (b : CheckerBoard) :
    diag2Idx b 0 = (List.range (min b.rows b.cols)).map (fun k => (k, k)) := by
  unfold diag2Idx
  simp only [Nat.add_zero, takeWhile_lt_range]

/-- A family member built from index i with at least 10 points is in
the family. -/
lemma mkLine_mem_familyLines {pi4 : ℚ} {hz : Bool} {board : ℕ} {f : ℕ → List Vec2}
    {n i : ℕ} (h1 : i < n) (h2 : 10 ≤ (f i).length) :
    mkLine pi4 hz i board (f i) ∈ familyLines pi4 hz board n f := by
  simp only [familyLines, List.mem_filterMap, List.mem_range]
  exact ⟨i, h1, by rw [if_neg (Nat.not_lt.mpr h2)]⟩

/-- C9: the first diagonal family started at row 0 and the second
diagonal family started at column 0 traverse exactly the same cells
(k, k) for k below min rows cols; consequently, whenever the main
diagonal holds at least 10 defined corners, the per-board line list
contains at least two lines whose point sequence is that diagonal. -/
theorem diagonal_families_duplicate (pi4 : ℚ) (corners : List Vec2) (boardIdx : ℕ)
    (b : CheckerBoard) (h10 : 10 ≤ (diag1Points corners b 0).length) :
    diag1Idx b 0 = (List.range (min b.rows b.cols)).map (fun k => (k, k)) ∧
      diag2Idx b 0 = (List.range (min b.rows b.cols)).map (fun k => (k, k)) ∧
      2 ≤ (boardLines pi4 corners boardIdx b).countP
            (fun l => decide (l.points = diag1Points corners b 0)) := by
  have hidx : diag2Idx b 0 = diag1Idx b 0 := by
    rw [diag1Idx_zero, diag2Idx_zero]
  have hpts : diag2Points corners b 0 = diag1Points corners b 0 := by
    unfold diag1Points diag2Points
    rw [hidx]
  have hmin : 0 < min b.rows b.cols := by
    by_contra hle
    have hmin0 : min b.rows b.cols = 0 := Nat.eq_zero_of_not_pos hle
    have : diag1Points corners b 0 = [] := by
      unfold diag1Points
      rw [diag1Idx_zero, hmin0]
      rfl
    rw [this] at h10
    exact absurd h10 (by norm_num)
  refine ⟨diag1Idx_zero b, diag2Idx_zero b, ?_⟩
  have hrow : 0 < b.rows := lt_of_lt_of_le hmin (Nat.min_le_left _ _)
  have hcol : 0 < b.cols := lt_of_lt_of_le hmin (Nat.min_le_right _ _)
  have hm1 : mkLine pi4 false 0 boardIdx (diag1Points corners b 0) ∈
      familyLines pi4 false boardIdx b.rows (diag1Points corners b) :=
    mkLine_mem_familyLines hrow h10
  have hm2 : mkLine pi4 false 0 boardIdx (diag2Points corners b 0) ∈
      familyLines pi4 false boardIdx b.cols (diag2Points corners b) :=
    mkLine_mem_familyLines hcol (by rw [hpts]; exact h10)
  have hc1 : 0 < (familyLines pi4 false boardIdx b.rows (diag1Points corners b)).countP
      (fun l => decide (l.points = diag1Points corners b 0)) :=
    List.countP_pos_iff.mpr ⟨_, hm1, by simp [mkLine]⟩
  have hc2 : 0 < (familyLines pi4 false boardIdx b.cols (diag2Points corners b)).countP
      (fun l => decide (l.points = diag1Points corners b 0)) :=
    List.countP_pos_iff.mpr ⟨_, hm2, by simp [mkLine, hpts]⟩
  unfold boardLines
  simp only [List.countP_append]
  omega

/-- A fully defined ten by ten board, for evaluating the diagonal
duplication on a concrete input. -/
def squareBoard : CheckerBoard :=
  ⟨10, 10, fun i j => if i < 10 ∧ j < 10 then some (i * 10 + j) else none⟩

/-- One hundred concrete corners for the ten by ten board. -/
def squareCorners : List Vec2 :=
  (List.range 100).map (fun k => ⟨(k : ℚ), (k : ℚ)⟩)

/-- Witness for C9 at a concrete input: on the fully defined ten by ten
board the main diagonal has ten corners, the two diagonal families
start on the same cells, and two emitted lines share that point
sequence. -/
theorem diagonal_families_duplicate_witness :
    diag1Idx squareBoard 0 =
        (List.range (min squareBoard.rows squareBoard.cols)).map (fun k => (k, k)) ∧
      diag2Idx squareBoard 0 =
        (List.range (min squareBoard.rows squareBoard.cols)).map (fun k => (k, k)) ∧
      2 ≤ (boardLines 1 squareCorners 0 squareBoard).countP
            (fun l => decide (l.points = diag1Points squareCorners squareBoard 0)) :=
  diagonal_families_duplicate 1 squareCorners 0 squareBoard (by decide)

/-! ## C7 -/

/-- A rational list of length five is a five-element literal. -/
lemma length_eq_five_q {l : List ℚ} (h : l.length = 5) :
    ∃ a b c d e, l = [a, b, c, d, e] := by
  rcases l with _ | ⟨a, _ | ⟨b, _ | ⟨c, _ | ⟨d, _ | ⟨e, _ | ⟨f, t⟩⟩⟩⟩⟩⟩ <;>
    simp only [List.length] at h <;>
    first
      | exact ⟨a, b, c, d, e, rfl⟩
      | omega

/-- C7: in the 3DEClassicLD schedule the parameter vector is
initialized with entry 1 equal to M_PI_2 (the parameter pi2) and all
other entries 0; the fourth estimation stage passes the lock vector
that keeps exactly distortion parameters 1 and 4 locked, so for any
solver respecting the distortion locks those two entries are unchanged
by that stage (and still hold pi2 and 0); and the fifth stage unlocks
all five parameters with the lines frozen.  The existential exhibits
the intermediate camera states of the successful run, with each stage
call shown with its literal lock arguments. -/
theorem ld_schedule_stage_locks {Item : Type} (pi2 : ℚ) (est : EstimateFn Item)
    (hlock : RespectsDistortionLocks est) (cam : Camera) (items : List Item)
    (hlen : cam.distortionParams.length = 5)
    (hok : (estimateDistortion3DELD pi2 est cam items).2.1 = true) :
    ldInitParams pi2 cam.distortionParams = [0, pi2, 0, 0, 0] ∧
      (∀ i, i < 5 →
        ((ldStages.getD 3 ⟨true, true, [], false⟩).locksDistortions.getD i false = true ↔
          (i = 1 ∨ i = 4))) ∧
      (ldStages.getD 4 ⟨true, true, [], false⟩).locksDistortions =
        [false, false, false, false, false] ∧
      (ldStages.getD 4 ⟨true, true, [], false⟩).lockLines = true ∧
      ∃ c1 c2 c3 c4 c5 : Camera,
        est { cam with distortionParams := ldInitParams pi2 cam.distortionParams } items
            true true [true, true, true, true, true] false = (true, c1) ∧
        est c1 items true true [false, true, true, true, true] false = (true, c2) ∧
        est c2 items true false [false, true, true, true, true] false = (true, c3) ∧
        est c3 items true false [false, true, false, false, true] false = (true, c4) ∧
        est c4 items true false [false, false, false, false, false] true = (true, c5) ∧
        (estimateDistortion3DELD pi2 est cam items).1 = c5 ∧
        c4.distortionParams.getD 1 0 = c3.distortionParams.getD 1 0 ∧
        c4.distortionParams.getD 4 0 = c3.distortionParams.getD 4 0 ∧
        c4.distortionParams.getD 1 0 = pi2 ∧
        c4.distortionParams.getD 4 0 = 0 := by
  obtain ⟨a, b, c, d, e, hp⟩ := length_eq_five_q hlen
  have hinit : ldInitParams pi2 cam.distortionParams = [0, pi2, 0, 0, 0] := by
    rw [hp]; rfl
  refine ⟨hinit, by decide, rfl, rfl, ?_⟩
  unfold estimateDistortion3DELD at hok
  simp only [ldStages, runStages] at hok
  split at hok
  case isFalse => simp at hok
  case isTrue h1 =>
    dsimp only at hok
    split at hok
    case isFalse => simp at hok
    case isTrue h2 =>
      dsimp only at hok
      split at hok
      case isFalse => simp at hok
      case isTrue h3 =>
        dsimp only at hok
        split at hok
        case isFalse => simp at hok
        case isTrue h4 =>
          dsimp only at hok
          split at hok
          case isFalse => simp at hok
          case isTrue h5 =>
            refine ⟨_, _, _, _, _, Prod.ext h1 rfl, Prod.ext h2 rfl, Prod.ext h3 rfl,
              Prod.ext h4 rfl, Prod.ext h5 rfl, ?_, ?_, ?_, ?_, ?_⟩
            · simp [estimateDistortion3DELD, ldStages, runStages, h1, h2, h3, h4, h5]
            · exact hlock _ _ _ _ _ _ h4 1 (by decide)
            · exact hlock _ _ _ _ _ _ h4 4 (by decide)
            · rw [hlock _ _ _ _ _ _ h4 1 (by decide),
                hlock _ _ _ _ _ _ h3 1 (by decide),
                hlock _ _ _ _ _ _ h2 1 (by decide),
                hlock _ _ _ _ _ _ h1 1 (by decide)]
              simp [hinit]
            · rw [hlock _ _ _ _ _ _ h4 4 (by decide),
                hlock _ _ _ _ _ _ h3 4 (by decide),
                hlock _ _ _ _ _ _ h2 4 (by decide),
                hlock _ _ _ _ _ _ h1 4 (by decide)]
              simp [hinit]

/-- A trivially succeeding solver that leaves the camera untouched; it
respects every lock. -/
def idEstimate (Item : Type) : EstimateFn Item :=
  fun cam _ _ _ _ _ => (true, cam)

/-- A concrete 3DEClassicLD camera with nonzero prior parameters. -/
def ldWitnessCam : Camera :=
  ⟨.de3ClassicLD, 100, 100, (1, 1), (0, 0), [9, 9, 9, 9, 9]⟩

/-- Witness for C7 at a concrete input: the identity solver on a
concrete ClassicLD camera. -/
theorem ld_schedule_stage_locks_witness :
    ldInitParams 2 ldWitnessCam.distortionParams = [0, 2, 0, 0, 0] ∧
      (∀ i, i < 5 →
        ((ldStages.getD 3 ⟨true, true, [], false⟩).locksDistortions.getD i false = true ↔
          (i = 1 ∨ i = 4))) ∧
      (ldStages.getD 4 ⟨true, true, [], false⟩).locksDistortions =
        [false, false, false, false, false] ∧
      (ldStages.getD 4 ⟨true, true, [], false⟩).lockLines = true ∧
      ∃ c1 c2 c3 c4 c5 : Camera,
        idEstimate Unit
            { ldWitnessCam with distortionParams := ldInitParams 2 ldWitnessCam.distortionParams }
            [] true true [true, true, true, true, true] false = (true, c1) ∧
        idEstimate Unit c1 [] true true [false, true, true, true, true] false = (true, c2) ∧
        idEstimate Unit c2 [] true false [false, true, true, true, true] false = (true, c3) ∧
        idEstimate Unit c3 [] true false [false, true, false, false, true] false = (true, c4) ∧
        idEstimate Unit c4 [] true false [false, false, false, false, false] true = (true, c5) ∧
        (estimateDistortion3DELD 2 (idEstimate Unit) ldWitnessCam []).1 = c5 ∧
        c4.distortionParams.getD 1 0 = c3.distortionParams.getD 1 0 ∧
        c4.distortionParams.getD 4 0 = c3.distortionParams.getD 4 0 ∧
        c4.distortionParams.getD 1 0 = 2 ∧
        c4.distortionParams.getD 4 0 = 0 :=
  ld_schedule_stage_locks 2 (idEstimate Unit) (fun _ _ _ _ _ _ _ _ _ => rfl)
    ldWitnessCam [] rfl rfl

/-! ## C4 -/

/-- Counterexample to C4: the 3DEAnamorphic4 initialization never
writes entry 4 (the source sets indices 0 to 3 and 5 to 13 only), so a
prior value 7 at entry 4 survives the initialization; in particular
entry 4 is not 0 afterwards. -/
theorem a4_init_entry4_counterexample :
    a4InitParams [0, 0, 0, 0, 7, 0, 0, 0, 0, 0, 0, 0, 0, 0] =
        [0, 0, 0, 0, 7, 0, 0, 0, 0, 0, 0, 1, 1, 1] ∧
      (a4InitParams [0, 0, 0, 0, 7, 0, 0, 0, 0, 0, 0, 0, 0, 0]).getD 4 0 ≠ 0 := by
  refine ⟨rfl, ?_⟩
  norm_num [a4InitParams]

/-- C4 amended: before the 3DEAnamorphic4 schedule runs, the 14-entry
distortion parameter vector of the camera is initialized so that entries 0
to 3 and 5 to 10 are 0 and entries 11, 12 and 13 are 1.0, while entry 4
keeps its prior value (the initialization does not write it). -/
theorem a4_init_amended (params : List ℚ) (h : 14 ≤ params.length) :
    (a4InitParams params).getD 0 0 = 0 ∧
      (a4InitParams params).getD 1 0 = 0 ∧
      (a4InitParams params).getD 2 0 = 0 ∧
      (a4InitParams params).getD 3 0 = 0 ∧
      (a4InitParams params).getD 4 0 = params.getD 4 0 ∧
      (a4InitParams params).getD 5 0 = 0 ∧
      (a4InitParams params).getD 6 0 = 0 ∧
      (a4InitParams params).getD 7 0 = 0 ∧
      (a4InitParams params).getD 8 0 = 0 ∧
      (a4InitParams params).getD 9 0 = 0 ∧
      (a4InitParams params).getD 10 0 = 0 ∧
      (a4InitParams params).getD 11 0 = 1 ∧
      (a4InitParams params).getD 12 0 = 1 ∧
      (a4InitParams params).getD 13 0 = 1 := by
  have h0 : 0 < params.length := by omega
  have h1 : 1 < params.length := by omega
  have h2 : 2 < params.length := by omega
  have h3 : 3 < params.length := by omega
  have h5 : 5 < params.length := by omega
  have h6 : 6 < params.length := by omega
  have h7 : 7 < params.length := by omega
  have h8 : 8 < params.length := by omega
  have h9 : 9 < params.length := by omega
  have h10 : 10 < params.length := by omega
  have h11 : 11 < params.length := by omega
  have h12 : 12 < params.length := by omega
  have h13 : 13 < params.length := by omega
  simp only [a4InitParams, List.getD_eq_getElem?_getD, List.getElem?_set, List.length_set]
  norm_num [h0, h1, h2, h3, h5, h6, h7, h8, h9, h10, h11, h12, h13]

/-- Witness for C4 amended at a concrete input: a prior vector of
fourteen nines. -/
theorem a4_init_amended_witness :
    (a4InitParams (List.replicate 14 9)).getD 0 0 = 0 ∧
      (a4InitParams (List.replicate 14 9)).getD 1 0 = 0 ∧
      (a4InitParams (List.replicate 14 9)).getD 2 0 = 0 ∧
      (a4InitParams (List.replicate 14 9)).getD 3 0 = 0 ∧
      (a4InitParams (List.replicate 14 9)).getD 4 0 = (List.replicate 14 (9 : ℚ)).getD 4 0 ∧
      (a4InitParams (List.replicate 14 9)).getD 5 0 = 0 ∧
      (a4InitParams (List.replicate 14 9)).getD 6 0 = 0 ∧
      (a4InitParams (List.replicate 14 9)).getD 7 0 = 0 ∧
      (a4InitParams (List.replicate 14 9)).getD 8 0 = 0 ∧
      (a4InitParams (List.replicate 14 9)).getD 9 0 = 0 ∧
      (a4InitParams (List.replicate 14 9)).getD 10 0 = 0 ∧
      (a4InitParams (List.replicate 14 9)).getD 11 0 = 1 ∧
      (a4InitParams (List.replicate 14 9)).getD 12 0 = 1 ∧
      (a4InitParams (List.replicate 14 9)).getD 13 0 = 1 :=
  a4_init_amended (List.replicate 14 9) (by norm_num)

/-! ## C1 -/

/-- A solver whose first call always fails, leaving the camera as it
received it: the solver-failure abort path. -/
def failEstimate (Item : Type) : EstimateFn Item :=
  fun cam _ _ _ _ _ => (false, cam)

/-- A concrete RadialK1 camera of size 6 by 8 (half sizes 3 and 4, so
the diagonal is exactly 5) with pixel scale (100, 100). -/
def k1Cam : Camera :=
  ⟨.radialK1, 6, 8, (100, 100), (0, 0), [0]⟩

/-- A square root function agreeing with the real square root at the
only point where it is evaluated here: 3 * 3 + 4 * 4 = 25. -/
def sqrtAt25 : ℚ → ℚ :=
  fun q => if q = 25 then 5 else 0

/-- Identity pixel maps. -/
def idPix : Camera → Vec2 → Vec2 :=
  fun _ p => p

/-- Counterexample to C1: when the calibration dispatch aborts with a
solver failure, the continue statement skips the scale restore, so the
camera leaves the loop body with the temporary scale (diag, diag) =
(5, 5) instead of its pre-call scale (100, 100). -/
theorem scale_restore_counterexample :
    (processIntrinsic 0 sqrtAt25 (failEstimate LineWithPoints) (failEstimate PointPair)
        idPix idPix k1Cam []).outcome = Outcome.abortedCalibration ∧
      (processIntrinsic 0 sqrtAt25 (failEstimate LineWithPoints) (failEstimate PointPair)
          idPix idPix k1Cam []).camera.scale = (5, 5) ∧
      (processIntrinsic 0 sqrtAt25 (failEstimate LineWithPoints) (failEstimate PointPair)
          idPix idPix k1Cam []).camera.scale ≠ k1Cam.scale := by
  refine ⟨rfl, ?_, ?_⟩ <;>
    norm_num [processIntrinsic, dispatchEstimate, estimateDistortionK1, runStages,
      k1Stages, k1Cam, sqrtAt25, failEstimate]

/-- All schedules call the solver with lockScale true, so a solver
respecting the scale lock leaves the pixel scale unchanged across a
stage list whose calls all pass lockScale true. -/
lemma runStages_scale {Item : Type} {est : EstimateFn Item} (hE : RespectsScaleLock est)
    (stages : List StageCall) (hS : ∀ s ∈ stages, s.lockScale = true)
    (cam : Camera) (items : List Item) :
    (runStages est stages cam items).1.scale = cam.scale := by
  induction stages generalizing cam with
  | nil => rfl
  | cons s rest ih =>
    have hs : s.lockScale = true := hS s (List.mem_cons_self s rest)
    unfold runStages
    dsimp only
    split
    · rw [ih (fun s' hm => hS s' (List.mem_cons_of_mem s hm)), hs]
      exact hE cam items s.lockCenter s.locksDistortions s.lockLines
    · rw [hs]
      exact hE cam items s.lockCenter s.locksDistortions s.lockLines

/-- The model dispatch leaves the pixel scale unchanged when the solver
respects the scale lock. -/
lemma dispatchEstimate_scale {Item : Type} {est : EstimateFn Item}
    (hE : RespectsScaleLock est) (pi2 : ℚ) (cam : Camera) (items : List Item) :
    (dispatchEstimate pi2 est cam items).1.scale = cam.scale := by
  unfold dispatchEstimate
  cases hm : cam.model
  · exact runStages_scale hE k1Stages (by decide) cam items
  · exact runStages_scale hE k3Stages (by decide) cam items
  · exact runStages_scale hE r4Stages (by decide) cam items
  · exact runStages_scale hE a4Stages (by decide) _ items
  · exact runStages_scale hE ldStages (by decide) _ items
  · rfl

/-- C1 amended: for a solver respecting the scale lock, the pixel
scale after the per-intrinsic body equals the pre-call scale on every
path except the solver-failure abort of the calibration dispatch, where
the scale restore is skipped and the camera keeps the temporary scale
(diag, diag). -/
theorem scale_restore_amended (pi2 : ℚ) (sqrtQ : ℚ → ℚ) (estL : EstimateFn LineWithPoints)
    (estP : EstimateFn PointPair) (dPix udPix : Camera → Vec2 → Vec2) (cam0 : Camera)
    (allLines : List LineWithPoints)
    (hL : RespectsScaleLock estL) (hP : RespectsScaleLock estP) :
    ((processIntrinsic pi2 sqrtQ estL estP dPix udPix cam0 allLines).outcome =
        Outcome.abortedCalibration →
      (processIntrinsic pi2 sqrtQ estL estP dPix udPix cam0 allLines).camera.scale =
        (sqrtQ ((cam0.w : ℚ) * (1 / 2) * ((cam0.w : ℚ) * (1 / 2)) +
            (cam0.h : ℚ) * (1 / 2) * ((cam0.h : ℚ) * (1 / 2))),
          sqrtQ ((cam0.w : ℚ) * (1 / 2) * ((cam0.w : ℚ) * (1 / 2)) +
            (cam0.h : ℚ) * (1 / 2) * ((cam0.h : ℚ) * (1 / 2))))) ∧
      ((processIntrinsic pi2 sqrtQ estL estP dPix udPix cam0 allLines).outcome ≠
          Outcome.abortedCalibration →
        (processIntrinsic pi2 sqrtQ estL estP dPix udPix cam0 allLines).camera.scale =
          cam0.scale) := by
  unfold processIntrinsic
  dsimp only
  split
  · refine ⟨fun _ => ?_, fun hne => absurd rfl hne⟩
    exact dispatchEstimate_scale hL pi2 _ allLines
  · split
    · exact ⟨fun hab => by simp at hab, fun _ => rfl⟩
    · split
      · refine ⟨fun hab => by simp at hab, fun _ => ?_⟩
        exact dispatchEstimate_scale hP pi2 _ _
      · refine ⟨fun hab => by simp at hab, fun _ => ?_⟩
        exact dispatchEstimate_scale hP pi2 _ _

/-- Witness for C1 amended at a concrete input: the identity solver on
the concrete RadialK1 camera; the body completes and the scale is
restored to (100, 100). -/
theorem scale_restore_amended_witness :
    ((processIntrinsic 0 sqrtAt25 (idEstimate LineWithPoints) (idEstimate PointPair)
          idPix idPix k1Cam []).outcome = Outcome.abortedCalibration →
      (processIntrinsic 0 sqrtAt25 (idEstimate LineWithPoints) (idEstimate PointPair)
          idPix idPix k1Cam []).camera.scale =
        (sqrtAt25 ((k1Cam.w : ℚ) * (1 / 2) * ((k1Cam.w : ℚ) * (1 / 2)) +
            (k1Cam.h : ℚ) * (1 / 2) * ((k1Cam.h : ℚ) * (1 / 2))),
          sqrtAt25 ((k1Cam.w : ℚ) * (1 / 2) * ((k1Cam.w : ℚ) * (1 / 2)) +
            (k1Cam.h : ℚ) * (1 / 2) * ((k1Cam.h : ℚ) * (1 / 2))))) ∧
      ((processIntrinsic 0 sqrtAt25 (idEstimate LineWithPoints) (idEstimate PointPair)
            idPix idPix k1Cam []).outcome ≠ Outcome.abortedCalibration →
        (processIntrinsic 0 sqrtAt25 (idEstimate LineWithPoints) (idEstimate PointPair)
            idPix idPix k1Cam []).camera.scale = k1Cam.scale) :=
  scale_restore_amended 0 sqrtAt25 (idEstimate LineWithPoints) (idEstimate PointPair)
    idPix idPix k1Cam [] (fun _ _ _ _ _ => rfl) (fun _ _ _ _ _ => rfl)

/-! ## C2 -/

/-- Counterexample to C2: a single view whose only board yields exactly
one line.  retrieveLines reports failure for the view, so zero lines
survive in total (fewer than two), yet the intrinsic is not skipped:
the calibration dispatch still invokes the solver (its call trace is
nonempty). -/
theorem insufficient_lines_counterexample :
    (gatherLines 1 7 [⟨7, some rowDetector⟩]).length < 2 ∧
      (processIntrinsic 0 sqrtAt25 (idEstimate LineWithPoints) (idEstimate PointPair)
          idPix idPix k1Cam (gatherLines 1 7 [⟨7, some rowDetector⟩])).calibTrace ≠ [] := by
  constructor
  · decide
  · decide

/-- One run of a nonempty stage list records at least its first call. -/
lemma runStages_cons_trace_ne {Item : Type} {est : EstimateFn Item} {s : StageCall}
    {rest : List StageCall} {cam : Camera} {items : List Item} :
    (runStages est (s :: rest) cam items).2.2 ≠ [] := by
  unfold runStages
  dsimp only
  split <;> simp

/-- For every supported model the dispatch makes at least one solver
call. -/
lemma dispatchEstimate_trace_ne {Item : Type} (pi2 : ℚ) (est : EstimateFn Item)
    (cam : Camera) (items : List Item) (h : cam.model ≠ CameraModel.otherPinhole) :
    (dispatchEstimate pi2 est cam items).2.2 ≠ [] := by
  unfold dispatchEstimate
  cases hm : cam.model
  · exact runStages_cons_trace_ne
  · exact runStages_cons_trace_ne
  · exact runStages_cons_trace_ne
  · exact runStages_cons_trace_ne
  · exact runStages_cons_trace_ne
  · exact absurd hm h

/-- C2 amended: the two-line minimum is enforced per view inside
retrieveLines (it reports failure exactly when fewer than two lines
survive for that view, and the caller then drops the lines of that view);
the intrinsic itself is not skipped: for every supported model the
calibration dispatch invokes the solver even when no line at all was
gathered. -/
theorem per_view_line_filter_amended (pi4 : ℚ) (det : CheckerDetector) (pi2 : ℚ)
    (sqrtQ : ℚ → ℚ) (estL : EstimateFn LineWithPoints) (estP : EstimateFn PointPair)
    (dPix udPix : Camera → Vec2 → Vec2) (cam0 : Camera) (allLines : List LineWithPoints)
    (hmodel : cam0.model ≠ CameraModel.otherPinhole) :
    ((retrieveLines pi4 det).1 = false ↔ (retrieveLinesList pi4 det).length < 2) ∧
      (processIntrinsic pi2 sqrtQ estL estP dPix udPix cam0 allLines).calibTrace ≠ [] := by
  constructor
  · unfold retrieveLines
    split
    · next h => simpa using h
    · next h => simpa using h
  · unfold processIntrinsic
    dsimp only
    split
    · exact dispatchEstimate_trace_ne pi2 estL _ allLines hmodel
    · split
      · exact dispatchEstimate_trace_ne pi2 estL _ allLines hmodel
      · split <;> exact dispatchEstimate_trace_ne pi2 estL _ allLines hmodel

/-- Witness for C2 amended at a concrete input. -/
theorem per_view_line_filter_amended_witness :
    ((retrieveLines 1 rowDetector).1 = false ↔ (retrieveLinesList 1 rowDetector).length < 2) ∧
      (processIntrinsic 0 sqrtAt25 (idEstimate LineWithPoints) (idEstimate PointPair)
          idPix idPix k1Cam []).calibTrace ≠ [] :=
  per_view_line_filter_amended 1 rowDetector 0 sqrtAt25 (idEstimate LineWithPoints)
    (idEstimate PointPair) idPix idPix k1Cam [] (by decide)

/-! ## C3 -/

/-- Counterexample to C3: with a non-pinhole first intrinsic and a
pinhole second, the run produces no per-intrinsic results at all (the
program returns EXIT_FAILURE at the first non-pinhole intrinsic instead
of skipping it), and the exit code is 1 even though the output could be
written. -/
theorem non_pinhole_counterexample :
    processAll 1 0 sqrtAt25 (idEstimate LineWithPoints) (idEstimate PointPair) idPix idPix
        [] [(0, SceneIntrinsic.nonPinhole), (1, SceneIntrinsic.pinhole k1Cam)] = none ∧
      mainExitCode 1 0 sqrtAt25 (idEstimate LineWithPoints) (idEstimate PointPair) idPix idPix
        [] [(0, SceneIntrinsic.nonPinhole), (1, SceneIntrinsic.pinhole k1Cam)] true true = 1 :=
  ⟨rfl, rfl⟩

/-- C3 amended: when some intrinsic in the scene is not a pinhole
variant, the program logs the unsupported-model error and immediately
exits with EXIT_FAILURE; the remaining intrinsics are not processed (no
per-intrinsic result list is produced). -/
theorem non_pinhole_exit_amended (pi4 pi2 : ℚ) (sqrtQ : ℚ → ℚ)
    (estL : EstimateFn LineWithPoints) (estP : EstimateFn PointPair)
    (dPix udPix : Camera → Vec2 → Vec2) (views : List View)
    (intrs : List (ℕ × SceneIntrinsic))
    (h : ∃ i, (i, SceneIntrinsic.nonPinhole) ∈ intrs) (saveOk : Bool) :
    processAll pi4 pi2 sqrtQ estL estP dPix udPix views intrs = none ∧
      mainExitCode pi4 pi2 sqrtQ estL estP dPix udPix views intrs true saveOk = 1 := by
  have hnone : processAll pi4 pi2 sqrtQ estL estP dPix udPix views intrs = none := by
    obtain ⟨i, hi⟩ := h
    induction intrs with
    | nil => simp at hi
    | cons p rest ih =>
      obtain ⟨j, k⟩ := p
      cases k with
      | nonPinhole => rfl
      | pinhole cam =>
        rcases List.mem_cons.mp hi with heq | hmem
        · simp at heq
        · unfold processAll
          rw [ih hmem]
          rfl
  refine ⟨hnone, ?_⟩
  simp [mainExitCode, hnone]

/-- Witness for C3 amended at a concrete input: a single non-pinhole
intrinsic. -/
theorem non_pinhole_exit_amended_witness :
    processAll 1 0 sqrtAt25 (idEstimate LineWithPoints) (idEstimate PointPair) idPix idPix
        [] [(0, SceneIntrinsic.nonPinhole)] = none ∧
      mainExitCode 1 0 sqrtAt25 (idEstimate LineWithPoints) (idEstimate PointPair) idPix idPix
        [] [(0, SceneIntrinsic.nonPinhole)] true true = 1 :=
  non_pinhole_exit_amended 1 0 sqrtAt25 (idEstimate LineWithPoints) (idEstimate PointPair)
    idPix idPix [] [(0, SceneIntrinsic.nonPinhole)] ⟨0, by simp⟩ true

/-! ## C5 -/

/-- Counterexample to C5: a scene with a single pinhole intrinsic whose
schedule aborts with a solver failure at the first stage (so every
intrinsic of the scene fails calibration), yet the process exits 0
because the output can be written. -/
theorem all_fail_exit_counterexample :
    (processIntrinsic 0 sqrtAt25 (failEstimate LineWithPoints) (failEstimate PointPair)
        idPix idPix k1Cam (gatherLines 1 5 [])).outcome = Outcome.abortedCalibration ∧
      mainExitCode 1 0 sqrtAt25 (failEstimate LineWithPoints) (failEstimate PointPair)
        idPix idPix [] [(5, SceneIntrinsic.pinhole k1Cam)] true true = 0 :=
  ⟨rfl, rfl⟩

/-- C5 amended: the process exits 0 whenever the input scene is
readable, every intrinsic is a pinhole camera and the output scene can
be written — even when every intrinsic fails calibration; per-intrinsic
failures only log and skip.  A non-zero exit needs an unreadable input,
a non-pinhole intrinsic, or an unwritable output. -/
theorem exit_code_amended (pi4 pi2 : ℚ) (sqrtQ : ℚ → ℚ)
    (estL : EstimateFn LineWithPoints) (estP : EstimateFn PointPair)
    (dPix udPix : Camera → Vec2 → Vec2) (views : List View)
    (intrs : List (ℕ × SceneIntrinsic))
    (hpin : ∀ p ∈ intrs, (Prod.snd p).isPinhole = true) :
    (∃ rs, processAll pi4 pi2 sqrtQ estL estP dPix udPix views intrs = some rs) ∧
      mainExitCode pi4 pi2 sqrtQ estL estP dPix udPix views intrs true true = 0 := by
  have hsome : ∃ rs, processAll pi4 pi2 sqrtQ estL estP dPix udPix views intrs = some rs := by
    induction intrs with
    | nil => exact ⟨[], rfl⟩
    | cons p rest ih =>
      obtain ⟨j, k⟩ := p
      cases k with
      | nonPinhole =>
        have := hpin (j, SceneIntrinsic.nonPinhole) (List.mem_cons_self _ _)
        simp [SceneIntrinsic.isPinhole] at this
      | pinhole cam =>
        obtain ⟨rs, hrs⟩ := ih (fun q hq => hpin q (List.mem_cons_of_mem _ hq))
        refine ⟨(j, processIntrinsic pi2 sqrtQ estL estP dPix udPix cam
          (gatherLines pi4 j views)) :: rs, ?_⟩
        unfold processAll
        rw [hrs]
        rfl
  obtain ⟨rs, hrs⟩ := hsome
  refine ⟨⟨rs, hrs⟩, ?_⟩
  simp [mainExitCode, hrs]

/-- Witness for C5 amended at a concrete input: a single pinhole
intrinsic with the always-failing solver still exits 0. -/
theorem exit_code_amended_witness :
    (∃ rs, processAll 1 0 sqrtAt25 (failEstimate LineWithPoints) (failEstimate PointPair)
        idPix idPix [] [(5, SceneIntrinsic.pinhole k1Cam)] = some rs) ∧
      mainExitCode 1 0 sqrtAt25 (failEstimate LineWithPoints) (failEstimate PointPair)
        idPix idPix [] [(5, SceneIntrinsic.pinhole k1Cam)] true true = 0 :=
  exit_code_amended 1 0 sqrtAt25 (failEstimate LineWithPoints) (failEstimate PointPair)
    idPix idPix [] [(5, SceneIntrinsic.pinhole k1Cam)]
    (by intro p hp; simp at hp; rw [hp]; rfl)

end DistortionCalibration
